import Mathlib

/-
  Shallow embedding of the PCL dump capture utility (pcl_dump.py and
  scope_dump_pro.py): the pause gate, the byte source loop, the job
  monitor timer loop, the renderer dispatch, and the startup paths.
-/

namespace PclDump

/-- Configuration constants of the module (pcl_dump.py lines 30 to 48),
restricted to the fields the verified components consult. -/
structure Config where
  serialIgnore : Bool
  keepBuffer : Bool
  convFormat : String
  pngPhosphor : Bool
  preview : Bool
  timeoutS : Nat
  commandsStartup : List String
  deriving Repr, DecidableEq

/-- Source default values of the configuration constants. -/
def defaultConfig : Config :=
  { serialIgnore := false
    keepBuffer := false
    convFormat := "pdf"
    pngPhosphor := true
    preview := true
    timeoutS := 2
    commandsStartup := ["++srqauto 1\r\n", "++read\r\n", "++read\r\n"] }

/-- Outcome of one pass of the timer loop body, classifying the branch
taken in timerRun (pcl_dump.py lines 61 to 84). -/
inductive TickOutcome where
  | pausedTick : TickOutcome
  | noop : TickOutcome
  | complete (bytes : Nat) : TickOutcome
  | receiving (bytes : Nat) : TickOutcome
  deriving Repr, DecidableEq

/-- Branch decision of one timerRun cycle from the pause flag and the two
size samples: the code first tests size_last_check against zero, then
against size_first_check (pcl_dump.py lines 63 to 84). -/
def timerTick (pausedFlag : Bool) (S0 S1 : Nat) : TickOutcome :=
  if pausedFlag then TickOutcome.pausedTick
  else if S1 ≠ 0 then
    if S1 = S0 then TickOutcome.complete S1
    else TickOutcome.receiving S1
  else TickOutcome.noop

/-- Size effect of clearBuffer (pcl_dump.py lines 111 to 119): under
KEEP_BUFFER the function returns at once; otherwise it truncates the file
when and only when it is nonempty. -/
def clearBufSize (keep : Bool) (n : Nat) : Nat :=
  if keep then n else if n ≠ 0 then 0 else n

/-- Observable result of one non-paused timer cycle: which renderer
invocations it performs (by input size) and the buffer size it leaves
behind, assuming no concurrent append between the second sample and the
end of the cycle. -/
structure CycleResult where
  renders : List Nat
  sizeAfter : Nat
  deriving Repr, DecidableEq

/-- One non-paused cycle of timerRun given the two samples S0 and S1
(pcl_dump.py lines 65 to 81): on completion the cycle calls renderFile on
the buffer and then clearBuffer. -/
def timerCycle (keep : Bool) (S0 S1 : Nat) : CycleResult :=
  if S1 ≠ 0 then
    if S1 = S0 then { renders := [S1], sizeAfter := clearBufSize keep S1 }
    else { renders := [], sizeAfter := S1 }
  else { renders := [], sizeAfter := S1 }

/-- Running state of the monitor across cycles: current on-disk buffer
size and the accumulated renderer invocations. -/
structure MonState where
  buf : Nat
  renders : List Nat
  deriving Repr, DecidableEq

/-- One monitor cycle in a quiescent period (no appends occur), so the
second sample equals the first. -/
def quietCycle (keep : Bool) (s : MonState) : MonState :=
  let r := timerCycle keep s.buf s.buf
  { buf := r.sizeAfter, renders := s.renders ++ r.renders }

/-- Iterated quiescent monitor cycles. -/
def runQuiet (keep : Bool) : Nat → MonState → MonState
  | 0, s => s
  | n + 1, s => runQuiet keep n (quietCycle keep s)

/-- Timed model of the buffer size: given the times at which ByteSource
appends land on disk, the size observed at time t counts the appends at
or before t. -/
def bufSize (appends : List Nat) (t : Nat) : Nat :=
  (appends.filter (fun a => a ≤ t)).length

/-- Unfolding of the timed size model over the head append. -/
theorem bufSize_cons (a : Nat) (l : List Nat) (t : Nat) :
    bufSize (a :: l) t = (if a ≤ t then 1 else 0) + bufSize l t := by
  by_cases h : a ≤ t <;>
    simp [bufSize, List.filter_cons, h, Nat.add_comm]

/-- An append at or before the sample time makes the sampled size positive. -/
theorem bufSize_pos_of_mem {b : Nat} {l : List Nat} {t : Nat}
    (hb : b ∈ l) (hbt : b ≤ t) : 0 < bufSize l t := by
  have hmem : b ∈ l.filter (fun a => a ≤ t) :=
    List.mem_filter.2 ⟨hb, by simpa using hbt⟩
  exact List.length_pos.2 (List.ne_nil_of_mem hmem)

/-- When every append lands strictly after the sample time, the sampled
size is zero. -/
theorem bufSize_eq_zero {l : List Nat} {t : Nat} (h : ∀ b ∈ l, t < b) :
    bufSize l t = 0 := by
  simp only [bufSize, List.length_eq_zero, List.filter_eq_nil_iff]
  intro b hb
  simpa using Nat.not_le.mpr (h b hb)

/-- The head of a strictly increasing list is below every later element. -/
theorem chain_lt_mem : ∀ {l : List Nat} {a : Nat},
    List.Chain' (· < ·) (a :: l) → ∀ b ∈ l, a < b := by
  intro l
  induction l with
  | nil => intro a _ b hb; cases hb
  | cons c l' ih =>
    intro a h b hb
    rw [List.chain'_cons] at h
    rcases List.mem_cons.mp hb with rfl | hb'
    · exact h.1
    · exact lt_trans h.1 (ih h.2 b hb')

/-- Core growth lemma: when the appends are strictly increasing in time
with gaps below T and at least one append lands after the first sample,
the second sample either strictly exceeds the first or both are zero. -/
theorem bufSize_growth (T t : Nat) : ∀ (l : List Nat),
    l.Chain' (· < ·) → l.Chain' (fun x y => y < x + T) →
    (∃ a ∈ l, t < a) →
    bufSize l t < bufSize l (t + T) ∨
      (bufSize l t = 0 ∧ bufSize l (t + T) = 0) := by
  intro l
  induction l with
  | nil =>
    intro _ _ hex
    rcases hex with ⟨a, ha, _⟩
    cases ha
  | cons a l ih =>
    intro hs hg hex
    by_cases hat : a ≤ t
    · rcases hex with ⟨b, hb, htb⟩
      have hbl : b ∈ l := by
        rcases List.mem_cons.mp hb with rfl | hmem
        · exact absurd hat (Nat.not_le.mpr htb)
        · exact hmem
      cases l with
      | nil => cases hbl
      | cons c l' =>
        have hsc := List.chain'_cons.mp hs
        have hgc := List.chain'_cons.mp hg
        have hcle : c ≤ t + T :=
          le_of_lt (lt_of_lt_of_le hgc.1 (Nat.add_le_add_right hat T))
        rcases ih hsc.2 hgc.2 ⟨b, hbl, htb⟩ with hlt | ⟨_, h0T⟩
        · left
          have hatT : a ≤ t + T := le_trans hat (Nat.le_add_right t T)
          rw [bufSize_cons a (c :: l') t, bufSize_cons a (c :: l') (t + T),
            if_pos hat, if_pos hatT]
          exact Nat.add_lt_add_left hlt 1
        · exact absurd h0T
            (Nat.pos_iff_ne_zero.mp (bufSize_pos_of_mem (List.mem_cons_self c l') hcle))
    · have hS0 : bufSize (a :: l) t = 0 := by
        apply bufSize_eq_zero
        intro b hb
        rcases List.mem_cons.mp hb with rfl | hbl
        · exact Nat.lt_of_not_le hat
        · exact lt_trans (Nat.lt_of_not_le hat) (chain_lt_mem hs b hbl)
      by_cases hS1 : bufSize (a :: l) (t + T) = 0
      · exact Or.inr ⟨hS0, hS1⟩
      · exact Or.inl (hS0 ▸ Nat.pos_of_ne_zero hS1)

end PclDump

namespace PclDump

/-- C1 helper: sanity instance of the cycle decision. -/
example : timerTick false 3 3 = TickOutcome.complete 3 := by decide

example : timerTick false 3 7 = TickOutcome.receiving 7 := by decide

example : timerTick false 5 0 = TickOutcome.noop := by decide

/-- C1: in a non-paused monitor cycle with samples S0 then S1: S1 = 0
gives a degenerate tick with no completion and no renderer call; S1 not
zero and equal to S0 transitions to complete and invokes the renderer on
the buffer; S1 not zero and different from S0 stays receiving, reporting
the current byte count, with no renderer call. -/
theorem monitor_cycle_case_analysis (keep : Bool) (S0 S1 : Nat) :
    (S1 = 0 → timerTick false S0 S1 = TickOutcome.noop ∧
      (timerCycle keep S0 S1).renders = []) ∧
    (S1 ≠ 0 → S1 = S0 → timerTick false S0 S1 = TickOutcome.complete S1 ∧
      (timerCycle keep S0 S1).renders = [S1]) ∧
    (S1 ≠ 0 → S1 ≠ S0 → timerTick false S0 S1 = TickOutcome.receiving S1 ∧
      (timerCycle keep S0 S1).renders = []) := by
  refine ⟨?_, ?_, ?_⟩
  · intro h0
    subst h0
    simp [timerTick, timerCycle]
  · intro h1 heq
    subst heq
    simp [timerTick, timerCycle, h1]
  · intro h1 hne
    simp [timerTick, timerCycle, h1, hne]

/-- C1 witness: the three cases evaluated at concrete samples. -/
theorem monitor_cycle_case_analysis_witness :
    timerTick false 5 0 = TickOutcome.noop ∧
    timerTick false 3 3 = TickOutcome.complete 3 ∧
    (timerCycle false 3 3).renders = [3] ∧
    timerTick false 3 7 = TickOutcome.receiving 7 := by
  refine ⟨((monitor_cycle_case_analysis false 5 0).1 rfl).1, ?_, ?_, ?_⟩
  · exact ((monitor_cycle_case_analysis false 3 3).2.1 (by decide) rfl).1
  · exact ((monitor_cycle_case_analysis false 3 3).2.1 (by decide) rfl).2
  · exact ((monitor_cycle_case_analysis false 3 7).2.2 (by decide) (by decide)).1

end PclDump

namespace PclDump

/-- C2: for every append sequence whose inter-append gaps are strictly
below the inactivity window T, a monitor cycle that starts at time t
while an append is still to come observes S1 > S0 or S0 = S1 = 0, and
therefore never takes the complete branch of timerRun. -/
theorem no_complete_while_appending (T t : Nat) (appends : List Nat)
    (hsorted : appends.Chain' (· < ·))
    (hgaps : appends.Chain' (fun x y => y < x + T))
    (hongoing : ∃ a ∈ appends, t < a) :
    (bufSize appends t < bufSize appends (t + T) ∨
      (bufSize appends t = 0 ∧ bufSize appends (t + T) = 0)) ∧
    ∀ n, timerTick false (bufSize appends t) (bufSize appends (t + T)) ≠
      TickOutcome.complete n := by
  have hmain := bufSize_growth T t appends hsorted hgaps hongoing
  refine ⟨hmain, ?_⟩
  intro n hC
  rcases hmain with hlt | ⟨_, h1⟩
  · have h1ne : bufSize appends (t + T) ≠ 0 :=
      Nat.pos_iff_ne_zero.mp (lt_of_le_of_lt (Nat.zero_le _) hlt)
    have hne : bufSize appends (t + T) ≠ bufSize appends t := ne_of_gt hlt
    simp [timerTick, h1ne, hne] at hC
  · simp [timerTick, h1] at hC

/-- C2 witness: appends at times 0, 1, 2, 3 with T = 2 and a cycle
starting at t = 1, still inside the append sequence. -/
theorem no_complete_while_appending_witness :
    (bufSize [0, 1, 2, 3] 1 < bufSize [0, 1, 2, 3] 3 ∨
      (bufSize [0, 1, 2, 3] 1 = 0 ∧ bufSize [0, 1, 2, 3] 3 = 0)) ∧
    ∀ n, timerTick false (bufSize [0, 1, 2, 3] 1) (bufSize [0, 1, 2, 3] 3) ≠
      TickOutcome.complete n :=
  no_complete_while_appending 2 1 [0, 1, 2, 3]
    (by norm_num [List.chain'_cons]) (by norm_num [List.chain'_cons])
    (by decide)

/-- C3 counterexample: in keep-buffer mode clearBuffer leaves the buffer
intact, so after appends stop with 5 bytes on disk, two quiescent cycles
invoke the renderer twice, not exactly once. -/
theorem complete_repeats_in_keep_mode :
    (runQuiet true 2 { buf := 5, renders := [] }).renders = [5, 5] ∧
    (runQuiet true 2 { buf := 5, renders := [] }).renders.length ≠ 1 := by
  decide

/-- C3 amended: in default mode, once appends stop with a non-empty
buffer, the monitor performs exactly one renderer invocation on the full
buffer and then stays at the idle state with a truncated buffer for all
further quiescent cycles. -/
theorem complete_once_then_idle (n k : Nat) (r : List Nat) (hn : 0 < n) :
    runQuiet false (k + 1) { buf := n, renders := r } =
      { buf := 0, renders := r ++ [n] } := by
  have hfirst : quietCycle false { buf := n, renders := r } =
      { buf := 0, renders := r ++ [n] } := by
    simp [quietCycle, timerCycle, clearBufSize, Nat.pos_iff_ne_zero.mp hn]
  have hrest : ∀ m r', runQuiet false m { buf := 0, renders := r' } =
      { buf := 0, renders := r' } := by
    intro m
    induction m with
    | zero => intro r'; rfl
    | succ m ih =>
      intro r'
      have hq : quietCycle false { buf := 0, renders := r' } =
          { buf := 0, renders := r' } := by
        simp [quietCycle, timerCycle]
      show runQuiet false m (quietCycle false { buf := 0, renders := r' }) =
        { buf := 0, renders := r' }
      rw [hq, ih]
  show runQuiet false k (quietCycle false { buf := n, renders := r }) =
    { buf := 0, renders := r ++ [n] }
  rw [hfirst, hrest]

/-- C3 amended witness: buffer of 5 bytes, two quiescent cycles, one
renderer invocation and an idle monitor afterwards. -/
theorem complete_once_then_idle_witness :
    runQuiet false 2 { buf := 5, renders := [] } =
      { buf := 0, renders := [5] } :=
  complete_once_then_idle 5 1 [] (by decide)

end PclDump

namespace PclDump

/-- External actions performed by renderFile, in program order. -/
inductive RAction where
  | convert : RAction
  | reportConvertError : RAction
  | phosphor : RAction
  | reportPhosphorError : RAction
  | preview : RAction
  | reportPreviewError : RAction
  | previewDisabledMsg : RAction
  deriving Repr, DecidableEq

/-- Trace of external actions of renderFile (pcl_dump.py lines 87 to
108): the converter runs first and a failure is caught and reported; the
function then falls through to the phosphor step, guarded only by the
format and phosphor flags, and to the preview step, guarded only by the
preview flag. -/
def renderFile (cfg : Config) (convertOk phosphorOk previewOk : Bool) :
    List RAction :=
  ([RAction.convert] ++
    (if convertOk then [] else [RAction.reportConvertError])) ++
  (if cfg.convFormat = "png" ∧ cfg.pngPhosphor = true then
    [RAction.phosphor] ++
      (if phosphorOk then [] else [RAction.reportPhosphorError])
  else []) ++
  (if cfg.preview = true then
    [RAction.preview] ++
      (if previewOk then [] else [RAction.reportPreviewError])
  else [RAction.previewDisabledMsg])

/-- C4 counterexample: with the source default configuration the preview
step is still attempted after a converter failure, and with the png
variant of the configuration the phosphor step is, too. -/
theorem render_failure_still_previews :
    RAction.preview ∈ renderFile defaultConfig false true true ∧
    RAction.phosphor ∈
      renderFile { defaultConfig with convFormat := "png" } false true true := by
  decide

/-- C4 amended: on a converter failure renderFile reports an error and
the failure is non-fatal, the phosphor and preview steps run under
exactly the same configuration guards as on success, and the monitor
still clears the buffer in default mode and continues with the next
cycle. -/
theorem render_failure_nonfatal (cfg : Config) (p v : Bool) :
    RAction.reportConvertError ∈ renderFile cfg false p v ∧
    (RAction.phosphor ∈ renderFile cfg false p v ↔
      (cfg.convFormat = "png" ∧ cfg.pngPhosphor = true)) ∧
    (RAction.preview ∈ renderFile cfg false p v ↔ cfg.preview = true) ∧
    (∀ S, S ≠ 0 → (timerCycle false S S).renders = [S] ∧
      (timerCycle false S S).sizeAfter = 0) := by
  refine ⟨?_, ?_, ?_, ?_⟩
  · simp [renderFile]
  · by_cases hpng : cfg.convFormat = "png" ∧ cfg.pngPhosphor = true <;>
      by_cases hv : cfg.preview = true <;>
      cases p <;> cases v <;>
      simp [renderFile, hpng, hv]
  · by_cases hpng : cfg.convFormat = "png" ∧ cfg.pngPhosphor = true <;>
      by_cases hv : cfg.preview = true <;>
      cases p <;> cases v <;>
      simp [renderFile, hpng, hv]
  · intro S hS
    constructor <;> simp [timerCycle, clearBufSize, hS]

/-- C4 amended witness: default configuration, converter failure, buffer
of five bytes. -/
theorem render_failure_nonfatal_witness :
    RAction.reportConvertError ∈ renderFile defaultConfig false true true ∧
    (timerCycle false 5 5).renders = [5] ∧
    (timerCycle false 5 5).sizeAfter = 0 :=
  ⟨(render_failure_nonfatal defaultConfig true true).1,
   ((render_failure_nonfatal defaultConfig true true).2.2.2 5 (by decide)).1,
   ((render_failure_nonfatal defaultConfig true true).2.2.2 5 (by decide)).2⟩

end PclDump

namespace PclDump

/-- Shared state of the capture subsystem: the pause gate, the bytes
still pending on the serial line, the in-memory write buffer of the dump
file handle, and the bytes durably flushed to the buffer file on disk. -/
structure SrcState where
  paused : Bool
  line : List Nat
  mem : List Nat
  disk : List Nat
  deriving Repr, DecidableEq

/-- One iteration of the listenSerial capture loop (pcl_dump.py lines
241 to 246): when not paused, read one byte, write it to the dump file
handle, then flush the handle to disk; a blocking read with nothing
pending is modelled as a stutter. -/
def listenStep (s : SrcState) : SrcState :=
  if s.paused then s
  else
    match s.line with
    | [] => s
    | b :: rest =>
      { s with line := rest, mem := [], disk := s.disk ++ (s.mem ++ [b]) }

/-- The pause command of handleInput (pcl_dump.py lines 171 to 173):
serialPause.set(). -/
def pauseCmd (s : SrcState) : SrcState := { s with paused := true }

/-- Content effect of clearBuffer (pcl_dump.py lines 111 to 119) on the
on-disk buffer: a no-op under KEEP_BUFFER, truncation of a nonempty file
otherwise. -/
def clearBufferList (keep : Bool) (b : List Nat) : List Nat :=
  if keep then b else if b.length ≠ 0 then [] else b

/-- The resume command of handleInput (pcl_dump.py lines 175 to 178):
clearBuffer() and then serialPause.clear(). -/
def resumeCmd (keep : Bool) (s : SrcState) : SrcState :=
  { s with paused := false, disk := clearBufferList keep s.disk }

/-- Controller commands acting on the pause gate. -/
inductive Cmd where
  | pauseC : Cmd
  | resumeC : Cmd
  deriving Repr, DecidableEq

/-- Application of one controller command. -/
def applyCmd (keep : Bool) (s : SrcState) : Cmd → SrcState
  | Cmd.pauseC => pauseCmd s
  | Cmd.resumeC => resumeCmd keep s

/-- Application of a command sequence, oldest first. -/
def applyCmds (keep : Bool) (s : SrcState) (cs : List Cmd) : SrcState :=
  cs.foldl (applyCmd keep) s

/-- Interleaved steps of the capture subsystem: a listener iteration, or
a pause gate command from the controller thread. -/
inductive SrcStep : SrcState → SrcState → Prop where
  | iter (s : SrcState) : SrcStep s (listenStep s)
  | command (keep : Bool) (s : SrcState) (c : Cmd) :
      SrcStep s (applyCmd keep s c)

/-- Reachability along interleaved capture subsystem steps. -/
def SrcReach : SrcState → SrcState → Prop :=
  Relation.ReflTransGen SrcStep

end PclDump

namespace PclDump

/-- C5 counterexample: in keep-buffer mode, resume after pause leaves the
retained three bytes on disk, and the first byte of the next job is
appended after them instead of starting from a truncated buffer. -/
theorem resume_keeps_buffer_in_keep_mode :
    (resumeCmd true (pauseCmd
      { paused := false, line := [9], mem := [], disk := [7, 7, 7] })).disk
      ≠ [] ∧
    (listenStep (resumeCmd true (pauseCmd
      { paused := false, line := [9], mem := [], disk := [7, 7, 7] }))).disk
      = [7, 7, 7, 9] := by
  decide

/-- Capture state refined with the dump file handle offset: the handle is
opened once in listenSerial and keeps its own position, which survives a
truncation performed by clearBuffer through a separate handle. -/
structure WriterState where
  paused : Bool
  line : List Nat
  mem : List Nat
  file : List Nat
  pos : Nat
  deriving Repr, DecidableEq

/-- A flushed write of data at the handle offset pos: bytes from pos on
are overwritten or appended, and a gap between the end of file and pos is
zero-filled, following the file semantics the dump handle sees after a
truncation by another handle. -/
def writeAt (file : List Nat) (pos : Nat) (data : List Nat) : List Nat :=
  (file.take pos ++ List.replicate (pos - file.length) 0) ++ data ++
    file.drop (pos + data.length)

/-- One listenSerial iteration on the offset-aware state (pcl_dump.py
lines 241 to 246): read one byte, write it through the handle at its
current offset, flush, and advance the offset. -/
def writerStep (s : WriterState) : WriterState :=
  if s.paused then s
  else
    match s.line with
    | [] => s
    | b :: rest =>
      { s with
          line := rest
          mem := []
          file := writeAt s.file s.pos (s.mem ++ [b])
          pos := s.pos + (s.mem ++ [b]).length }

/-- The pause command on the offset-aware state. -/
def writerPause (s : WriterState) : WriterState := { s with paused := true }

/-- The resume command on the offset-aware state (pcl_dump.py lines 175
to 178): clearBuffer truncates through a separate handle, so the dump
handle offset is left untouched. -/
def writerResume (keep : Bool) (s : WriterState) : WriterState :=
  { s with paused := false, file := clearBufferList keep s.file }

/-- C5 amended: in default mode resume after pause always yields an empty
on-disk buffer before the next byte is accepted; the next flushed byte of
the new job then lands at the retained handle offset, giving a file of a
zero-filled prefix of the old written length followed by that byte; in
keep-buffer mode resume performs no truncation at all, so the next write
of the new job lands after the retained contents. -/
theorem resume_after_pause_truncates (s : WriterState) :
    (writerResume false (writerPause s)).file = [] ∧
    (∀ b rest, s.mem = [] → s.line = b :: rest →
      (writerStep (writerResume false (writerPause s))).file =
        List.replicate s.pos 0 ++ [b]) ∧
    (writerResume true (writerPause s)).file = s.file := by
  have hfalse : ∀ b : List Nat, clearBufferList false b = [] := by
    intro b
    by_cases h : b.length ≠ 0
    · simp [clearBufferList, h]
    · simp [clearBufferList, h, List.length_eq_zero.mp (not_not.mp h)]
  refine ⟨?_, ?_, ?_⟩
  · simp [writerResume, writerPause, hfalse]
  · intro b rest hmem hline
    simp [writerStep, writerResume, writerPause, hline, hmem, hfalse,
      writeAt]
  · simp [writerResume, writerPause, clearBufferList]

/-- C5 amended witness: a paused session with three bytes written (handle
offset 3) and one pending byte; after a default-mode resume the buffer is
empty and the next flushed byte produces the four-byte file 0, 0, 0, 9. -/
theorem resume_after_pause_truncates_witness :
    (writerResume false (writerPause
      { paused := false, line := [9], mem := [], file := [7, 7, 7],
        pos := 3 })).file = [] ∧
    (writerStep (writerResume false (writerPause
      { paused := false, line := [9], mem := [], file := [7, 7, 7],
        pos := 3 }))).file = [0, 0, 0, 9] :=
  ⟨(resume_after_pause_truncates
      { paused := false, line := [9], mem := [], file := [7, 7, 7],
        pos := 3 }).1,
   (resume_after_pause_truncates
      { paused := false, line := [9], mem := [], file := [7, 7, 7],
        pos := 3 }).2.1 9 [] rfl rfl⟩

/-- C6: the pause command is idempotent on the whole state, the resume
command is idempotent as well, and the pause gate after any command
sequence is decided by the latest command alone. -/
theorem pause_idempotent (keep : Bool) (s : SrcState) :
    pauseCmd (pauseCmd s) = pauseCmd s ∧
    resumeCmd keep (resumeCmd keep s) = resumeCmd keep s ∧
    (∀ cs c, (applyCmds keep s (cs ++ [c])).paused =
      (applyCmds keep s [c]).paused) := by
  have hclear : ∀ b : List Nat,
      clearBufferList keep (clearBufferList keep b) = clearBufferList keep b := by
    intro b
    cases keep with
    | true => simp [clearBufferList]
    | false =>
      by_cases h : b.length ≠ 0
      · simp [clearBufferList, h]
      · simp [clearBufferList, h]
  refine ⟨rfl, ?_, ?_⟩
  · simp [resumeCmd, hclear]
  · intro cs c
    rw [applyCmds, List.foldl_append]
    cases c <;> rfl

end PclDump

namespace PclDump

/-- A listener iteration keeps the in-memory write buffer empty. -/
theorem listenStep_mem_nil {t : SrcState} (h : t.mem = []) :
    (listenStep t).mem = [] := by
  by_cases hp : t.paused = true
  · simp [listenStep, hp, h]
  · cases hline : t.line with
    | nil => simp [listenStep, hp, hline, h]
    | cons b rest => simp [listenStep, hp, hline]

/-- A pause gate command keeps the in-memory write buffer empty. -/
theorem applyCmd_mem_nil {keep : Bool} {t : SrcState} (c : Cmd)
    (h : t.mem = []) : (applyCmd keep t c).mem = [] := by
  cases c <;> simpa [applyCmd, pauseCmd, resumeCmd] using h

/-- C7: a non-paused listener iteration with a pending byte performs
exactly one read (the line shrinks by that byte) and exactly one append
(the disk grows by that byte alone), leaving the in-memory write buffer
flushed before the next read; and along any interleaving of listener
iterations and pause gate commands the in-memory buffer stays empty at
iteration boundaries, so a completion decision taken from the on-disk
size never coexists with an already-read but unflushed byte. -/
theorem flush_before_next_read (s : SrcState) :
    (∀ b rest, s.paused = false → s.line = b :: rest → s.mem = [] →
      listenStep s =
        { paused := false, line := rest, mem := [], disk := s.disk ++ [b] }) ∧
    (∀ s', s.mem = [] → SrcReach s s' → s'.mem = []) := by
  constructor
  · intro b rest hp hl hm
    simp [listenStep, hp, hl, hm]
  · intro s' hm hreach
    induction hreach with
    | refl => exact hm
    | tail hpre hstep ih =>
      cases hstep with
      | iter => exact listenStep_mem_nil ih
      | command => exact applyCmd_mem_nil _ ih

/-- C7 witness: one concrete iteration with byte 3 pending, and the
flushed-buffer invariant after that reachable step. -/
theorem flush_before_next_read_witness :
    listenStep { paused := false, line := [3], mem := [], disk := [1, 2] } =
      { paused := false, line := [], mem := [], disk := [1, 2, 3] } ∧
    (listenStep { paused := false, line := [3], mem := [], disk := [1, 2] }).mem
      = [] :=
  ⟨(flush_before_next_read
      { paused := false, line := [3], mem := [], disk := [1, 2] }).1
      3 [] rfl rfl rfl,
   (flush_before_next_read
      { paused := false, line := [3], mem := [], disk := [1, 2] }).2
      _ rfl (Relation.ReflTransGen.single (SrcStep.iter _))⟩

end PclDump

namespace PclDump

/-- Terminal outcome of the serial listener startup path. -/
inductive StartOutcome where
  | exitCode (code : Nat) : StartOutcome
  | nameError : StartOutcome
  | captureLoop : StartOutcome
  | skipped : StartOutcome
  deriving Repr, DecidableEq

/-- Result of running the listener startup: how it ended, whether the
buffer file was opened for writing, and which bytes the capture loop
appended. -/
structure ListenResult where
  outcome : StartOutcome
  openedBuffer : Bool
  appended : List Nat
  deriving Repr, DecidableEq

/-- The module pcl_dump.py binds no name logger anywhere, so evaluating
logger in listenSerial resolves against an undefined global. -/
def pclLoggerDefined : Bool := false

/-- Startup path of listenSerial in pcl_dump.py (lines 216 to 248): with
SERIAL_IGNORE unset, a failed serial open reports and exits with status
5; otherwise the startup-command block evaluates logger, raising
NameError when that name is undefined, before the buffer file is opened;
a failed buffer open reports and exits with status 5; otherwise the
capture loop runs and appends the line bytes. -/
def pclListenSerial (ignore serialOk loggerDefined bufferOk : Bool)
    (line : List Nat) : ListenResult :=
  if ignore = false then
    if serialOk = false then
      { outcome := StartOutcome.exitCode 5, openedBuffer := false,
        appended := [] }
    else if loggerDefined = false then
      { outcome := StartOutcome.nameError, openedBuffer := false,
        appended := [] }
    else if bufferOk = false then
      { outcome := StartOutcome.exitCode 5, openedBuffer := false,
        appended := [] }
    else
      { outcome := StartOutcome.captureLoop, openedBuffer := true,
        appended := line }
  else
    { outcome := StartOutcome.skipped, openedBuffer := false,
      appended := [] }

/-- Startup path of the Pro variant (scope_dump_pro.py): the serial port
is opened in SerialListener init (lines 243 to 250) and the buffer file
in listenSerial (lines 270 to 279); either failure reports and exits
with status 5. -/
def proStartup (ignore serialOk bufferOk : Bool) : StartOutcome :=
  if ignore = false then
    if serialOk = false then StartOutcome.exitCode 5
    else if bufferOk = false then StartOutcome.exitCode 5
    else StartOutcome.captureLoop
  else StartOutcome.skipped

/-- C8: an unopenable serial line without ignore-absence mode, and an
unopenable buffer file, each make the startup path exit with the single
attempt and the distinct non-zero status 5; shown on both the pcl_dump
serial branch and the Pro variant where both checks are live. -/
theorem startup_failures_fatal :
    (∀ bufferOk line,
      (pclListenSerial false false pclLoggerDefined bufferOk line).outcome =
        StartOutcome.exitCode 5) ∧
    (∀ bufferOk, proStartup false false bufferOk = StartOutcome.exitCode 5) ∧
    proStartup false true false = StartOutcome.exitCode 5 ∧
    (5 : Nat) ≠ 0 := by
  refine ⟨?_, ?_, rfl, by decide⟩
  · intro bufferOk line; rfl
  · intro bufferOk; rfl

/-- C10: with serial capture enabled and the port opening successfully,
listenSerial of pcl_dump.py reaches the undefined name logger and raises
NameError before the buffer file is ever opened, so the capture loop is
never entered and no byte is appended, whatever the buffer open would
have done and whatever bytes the line carries. -/
theorem pcl_listen_raises_nameerror (bufferOk : Bool) (line : List Nat) :
    pclListenSerial false true pclLoggerDefined bufferOk line =
      { outcome := StartOutcome.nameError, openedBuffer := false,
        appended := [] } := rfl

end PclDump

namespace PclDump

/-- Actions observable on the serial line around startup: an
inter-command sleep, a command write, and the start of the capture
loop. -/
inductive LineAction where
  | delay : LineAction
  | write (cmd : String) : LineAction
  | captureStart : LineAction
  deriving Repr, DecidableEq

/-- Startup-command loop of scope_dump_pro.py main (lines 714 to 720):
each iteration first sleeps the inter-command delay and then writes the
command to the line. -/
def proStartupTrace : List String → List LineAction
  | [] => []
  | c :: rest => LineAction.delay :: LineAction.write c ::
      proStartupTrace rest

/-- Full pre-capture line trace of the Pro variant: the startup-command
loop runs when the serial interface is attached, and the capture threads
start only afterwards. -/
def proMainTrace (ignore : Bool) (cmds : List String) : List LineAction :=
  (if ignore = true then [] else proStartupTrace cmds) ++
    [LineAction.captureStart]

/-- Startup trace as the claim words it: each write followed by the
fixed inter-command delay. -/
def claimedStartupTrace : List String → List LineAction
  | [] => []
  | c :: rest => LineAction.write c :: LineAction.delay ::
      claimedStartupTrace rest

/-- Pre-capture trace as the claim words it. -/
def claimedMainTrace (cmds : List String) : List LineAction :=
  claimedStartupTrace cmds ++ [LineAction.captureStart]

/-- Commands written on the line, in trace order. -/
def writesOf (tr : List LineAction) : List String :=
  tr.filterMap fun a =>
    match a with
    | LineAction.write c => some c
    | _ => none

/-- Checks that every write in the trace is immediately preceded by a
delay action. -/
def delayBeforeEachWrite : List LineAction → Bool
  | [] => true
  | LineAction.delay :: LineAction.write _ :: rest =>
      delayBeforeEachWrite rest
  | LineAction.write _ :: _ => false
  | _ :: rest => delayBeforeEachWrite rest

/-- C9 counterexample: with a single configured startup command the Pro
variant sleeps before the write and never after it, so the actual
pre-capture trace differs from the trace the claim describes. -/
theorem startup_trace_not_write_then_delay :
    proMainTrace false ["++read\r\n"] ≠ claimedMainTrace ["++read\r\n"] ∧
    proMainTrace false ["++read\r\n"] =
      [LineAction.delay, LineAction.write "++read\r\n",
        LineAction.captureStart] := by
  constructor
  · intro h
    simp [proMainTrace, claimedMainTrace, proStartupTrace,
      claimedStartupTrace] at h
  · rfl

/-- C9 amended: before the capture loop starts, every configured startup
command is written to the line in configuration order, and each write is
immediately preceded, not followed, by the fixed inter-command delay. -/
theorem startup_commands_before_capture (cmds : List String) :
    writesOf (proMainTrace false cmds) = cmds ∧
    delayBeforeEachWrite (proMainTrace false cmds) = true := by
  constructor
  · have h : ∀ l : List String, writesOf (proStartupTrace l ++
        [LineAction.captureStart]) = l := by
      intro l
      induction l with
      | nil => rfl
      | cons c rest ih =>
        simpa [proStartupTrace, writesOf, List.filterMap_cons] using ih
      -- note the motive unfolds writesOf over the two head actions
    simpa [proMainTrace] using h cmds
  · have h : ∀ l : List String, delayBeforeEachWrite (proStartupTrace l ++
        [LineAction.captureStart]) = true := by
      intro l
      induction l with
      | nil => rfl
      | cons c rest ih =>
        simpa [proStartupTrace, delayBeforeEachWrite] using ih
    simpa [proMainTrace] using h cmds

end PclDump
